import Mathlib

/-!
Verification development for the telegram-analytics-platform repository.

The definitions below are shallow embeddings of the Python source:
- `services/memory_manager.py` (task registry, TTL eviction),
- `routers/reports.py` (cache admission, scrape serialization),
- `services/report_generator.py` (LLM-response sanitizing and the
  truncated-JSON salvage fallback),
- `services/file_cleaner.py` (retention cleanup and path-safety check).

Python dictionaries are embedded as association lists with Python's
update-in-place/append-at-end semantics; wall-clock time (`time.time()`)
is passed explicitly as an integer parameter; fallible operations return
`Except`/`Option`.
-/

/-- A fragment of Python's value universe, large enough for the payloads
handled by the registry and the report generator: `None`, strings,
numbers, lists and string-keyed dicts. -/
inductive PyData where
  | pyNone : PyData
  | pyStr : String → PyData
  | pyNum : Int → PyData
  | pyList : List PyData → PyData
  | pyDict : List (String × PyData) → PyData
deriving Repr

/-- Python truthiness (`if task:`): `None` is falsy, strings/lists/dicts
are truthy iff non-empty, numbers are truthy iff non-zero. -/
def truthy : PyData → Bool
  | .pyNone => false
  | .pyStr s => !s.isEmpty
  | .pyNum n => n != 0
  | .pyList xs => !xs.isEmpty
  | .pyDict fs => !fs.isEmpty

/-- `d.get(k)` on a Python dict: first binding for the key, if any. -/
def alistLookup {α : Type} (m : List (String × α)) (k : String) : Option α :=
  match m with
  | [] => none
  | (k', v) :: rest => if k' = k then some v else alistLookup rest k

/-- `d.pop(k, None)` on a Python dict: drop every binding for the key. -/
def alistErase {α : Type} (m : List (String × α)) (k : String) : List (String × α) :=
  match m with
  | [] => []
  | (k', v) :: rest =>
      if k' = k then alistErase rest k else (k', v) :: alistErase rest k

/-- `d[k] = v` on a Python dict: replace the binding in place if the key
exists, otherwise append at the end (insertion order preserved). -/
def alistInsert {α : Type} (m : List (String × α)) (k : String) (v : α) :
    List (String × α) :=
  match m with
  | [] => [(k, v)]
  | (k', v') :: rest =>
      if k' = k then (k, v) :: rest else (k', v') :: alistInsert rest k v

/-- `task.get("status", "unknown") if isinstance(task, dict) else "unknown"`
(memory_manager.py lines 193 and 261).  A `status` value that is not a
string compares unequal to every status literal in the Python code, which
is observationally the same as the `"unknown"` default, so both are
embedded as `"unknown"`. -/
def statusOf (d : PyData) : String :=
  match d with
  | .pyDict fs =>
      match alistLookup fs "status" with
      | some (.pyStr s) => s
      | some _ => "unknown"
      | none => "unknown"
  | _ => "unknown"

/-- `TASK_TTL_RULES.get(status, 3600)` (memory_manager.py lines 129-134,
together with the default at line 167): TTL in seconds; 0 means "never
expire". -/
def TASK_TTL_RULES (status : String) : Int :=
  if status = "completed" then 300
  else if status = "processing" then 0
  else if status = "error" then 300
  else if status = "pending" then 0
  else 3600

/-- The registry's global state: `task_memory` and `memory_ttl`
(memory_manager.py lines 121-122). -/
structure MemState where
  task_memory : List (String × PyData)
  memory_ttl : List (String × Int)
deriving Repr

/-- `safe_set_task` (memory_manager.py lines 147-176).  `now` stands for
`time.time()` at the moment of the call; passing `pyNone` as `data` is
the removal operation. -/
def safe_set_task (s : MemState) (now : Int) (task_id : String)
    (data : PyData) (status : String) : MemState :=
  match data with
  | .pyNone =>
      ⟨alistErase s.task_memory task_id, alistErase s.memory_ttl task_id⟩
  | d =>
      let tm := alistInsert s.task_memory task_id d
      let ttl_seconds := TASK_TTL_RULES status
      if ttl_seconds > 0 then
        ⟨tm, alistInsert s.memory_ttl task_id (now + ttl_seconds)⟩
      else
        ⟨tm, alistErase s.memory_ttl task_id⟩

/-- `should_cleanup_by_status` (memory_manager.py lines 212-227). -/
def should_cleanup_by_status (status : String) : Bool :=
  if status = "processing" || status = "pending" then false
  else status = "completed" || status = "error"

/-- `safe_get_task` (memory_manager.py lines 179-200): read with lazy
eviction of expired evictable entries.  Returns the state after the call
together with the returned payload (`none` = Python `None`). -/
def safe_get_task (s : MemState) (now : Int) (task_id : String) :
    MemState × Option PyData :=
  match alistLookup s.memory_ttl task_id with
  | some expiry =>
      if now > expiry then
        match alistLookup s.task_memory task_id with
        | some task =>
            if truthy task then
              if should_cleanup_by_status (statusOf task) then
                (⟨alistErase s.task_memory task_id,
                  alistErase s.memory_ttl task_id⟩, none)
              else (s, alistLookup s.task_memory task_id)
            else (s, alistLookup s.task_memory task_id)
        | none => (s, alistLookup s.task_memory task_id)
      else (s, alistLookup s.task_memory task_id)
  | none => (s, alistLookup s.task_memory task_id)

/-- `safe_remove_task` (memory_manager.py lines 203-209): delegates to
`safe_set_task(task_id, None)` with the default status argument. -/
def safe_remove_task (s : MemState) (now : Int) (task_id : String) : MemState :=
  safe_set_task s now task_id .pyNone "processing"

/-- The per-entry test of the scan in `cleanup_expired_tasks`
(memory_manager.py lines 257-263): expired by TTL, and the stored task is
truthy with an evictable status. -/
def cleanup_candidate (s : MemState) (now : Int) (p : String × Int) : Bool :=
  now > p.2 &&
    (match alistLookup s.task_memory p.1 with
     | some task => truthy task && should_cleanup_by_status (statusOf task)
     | none => false)

/-- `cleanup_expired_tasks` (memory_manager.py lines 234-335), restricted
to its effect on the registry mappings: collect the expired evictable
entries, remove each from both mappings, and return the evicted count.
(The garbage-collection and heap-trim steps do not touch the mappings;
the in-place nulling of large payload fields applies only to entries that
are removed in the same pass.) -/
def cleanup_expired_tasks (s : MemState) (now : Int) : MemState × Nat :=
  let expired_tasks := s.memory_ttl.filter (cleanup_candidate s now)
  let tm := expired_tasks.foldl (fun m p => alistErase m p.1) s.task_memory
  let tt := expired_tasks.foldl (fun m p => alistErase m p.1) s.memory_ttl
  (⟨tm, tt⟩, expired_tasks.length)

-- ============================================================
-- Association-list lemmas
-- ============================================================

theorem alistLookup_erase_self {α : Type} (m : List (String × α)) (k : String) :
    alistLookup (alistErase m k) k = none := by
  induction m with
  | nil => rfl
  | cons p rest ih =>
      obtain ⟨k', v⟩ := p
      by_cases h : k' = k
      · simp only [alistErase, if_pos h]
        exact ih
      · simp only [alistErase, if_neg h, alistLookup, if_neg h]
        exact ih

theorem alistLookup_erase_ne {α : Type} (m : List (String × α)) (k k' : String)
    (h : k' ≠ k) : alistLookup (alistErase m k) k' = alistLookup m k' := by
  induction m with
  | nil => rfl
  | cons p rest ih =>
      obtain ⟨k₀, v⟩ := p
      by_cases h₀ : k₀ = k
      · have hne : ¬ (k₀ = k') := fun hk => h ((h₀.symm.trans hk).symm)
        simp only [alistErase, if_pos h₀, alistLookup, if_neg hne]
        exact ih
      · by_cases h₁ : k₀ = k'
        · simp only [alistErase, if_neg h₀, alistLookup, if_pos h₁]
        · simp only [alistErase, if_neg h₀, alistLookup, if_neg h₁]
          exact ih

theorem alistLookup_insert_self {α : Type} (m : List (String × α)) (k : String)
    (v : α) : alistLookup (alistInsert m k v) k = some v := by
  induction m with
  | nil => simp [alistInsert, alistLookup]
  | cons p rest ih =>
      obtain ⟨k₀, v₀⟩ := p
      by_cases h₀ : k₀ = k
      · simp [alistInsert, if_pos h₀, alistLookup]
      · simp only [alistInsert, if_neg h₀, alistLookup, if_neg h₀]
        exact ih

theorem alistLookup_insert_ne {α : Type} (m : List (String × α)) (k k' : String)
    (v : α) (h : k' ≠ k) :
    alistLookup (alistInsert m k v) k' = alistLookup m k' := by
  have hne : ¬ (k = k') := fun hk => h hk.symm
  induction m with
  | nil => simp [alistInsert, alistLookup, hne]
  | cons p rest ih =>
      obtain ⟨k₀, v₀⟩ := p
      by_cases h₀ : k₀ = k
      · have hne₀ : ¬ (k₀ = k') := fun hk => h ((h₀.symm.trans hk).symm)
        simp only [alistInsert, if_pos h₀, alistLookup, if_neg hne, if_neg hne₀]
      · by_cases h₁ : k₀ = k'
        · simp only [alistInsert, if_neg h₀, alistLookup, if_pos h₁]
        · simp only [alistInsert, if_neg h₀, alistLookup, if_neg h₁]
          exact ih

theorem mem_alistErase {α : Type} (m : List (String × α)) (k : String)
    (p : String × α) : p ∈ alistErase m k ↔ p ∈ m ∧ p.1 ≠ k := by
  induction m with
  | nil => simp [alistErase]
  | cons q rest ih =>
      obtain ⟨k₀, v₀⟩ := q
      by_cases h₀ : k₀ = k
      · simp only [alistErase, if_pos h₀, ih, List.mem_cons]
        constructor
        · rintro ⟨hp, hne⟩
          exact ⟨Or.inr hp, hne⟩
        · rintro ⟨hp | hp, hne⟩
          · exfalso
            apply hne
            rw [hp]
            exact h₀
          · exact ⟨hp, hne⟩
      · simp only [alistErase, if_neg h₀, List.mem_cons, ih]
        constructor
        · rintro (rfl | ⟨hp, hne⟩)
          · exact ⟨Or.inl rfl, h₀⟩
          · exact ⟨Or.inr hp, hne⟩
        · rintro ⟨rfl | hp, hne⟩
          · exact Or.inl rfl
          · exact Or.inr ⟨hp, hne⟩

theorem alistLookup_foldl_erase_ne {α : Type} (l : List (String × Int))
    (m : List (String × α)) (k : String) (h : ∀ p ∈ l, p.1 ≠ k) :
    alistLookup (l.foldl (fun m p => alistErase m p.1) m) k = alistLookup m k := by
  induction l generalizing m with
  | nil => rfl
  | cons q rest ih =>
      have hq : q.1 ≠ k := h q (List.mem_cons_self q rest)
      have hrest : ∀ p ∈ rest, p.1 ≠ k := fun p hp => h p (List.mem_cons_of_mem q hp)
      calc alistLookup ((q :: rest).foldl (fun m p => alistErase m p.1) m) k
          = alistLookup (rest.foldl (fun m p => alistErase m p.1) (alistErase m q.1)) k := rfl
        _ = alistLookup (alistErase m q.1) k := ih (alistErase m q.1) hrest
        _ = alistLookup m k := alistLookup_erase_ne m q.1 k (fun hk => hq hk.symm)

theorem mem_foldl_erase {α : Type} (l : List (String × Int))
    (m : List (String × α)) (p : String × α) :
    p ∈ l.foldl (fun m q => alistErase m q.1) m ↔ p ∈ m ∧ ∀ q ∈ l, p.1 ≠ q.1 := by
  induction l generalizing m with
  | nil => simp
  | cons q rest ih =>
      simp only [List.foldl_cons, ih, mem_alistErase, List.mem_cons]
      constructor
      · rintro ⟨⟨hp, hne⟩, hrest⟩
        refine ⟨hp, ?_⟩
        rintro r (rfl | hr)
        · exact hne
        · exact hrest r hr
      · rintro ⟨hp, hall⟩
        exact ⟨⟨hp, hall q (Or.inl rfl)⟩, fun r hr => hall r (Or.inr hr)⟩


-- ============================================================
-- Cache admission (routers/reports.py lines 359-368)
-- ============================================================

/-- The inline cache-admission decision of `parse_and_generate_report`
(routers/reports.py lines 359-368), the spec's `should_use_cache`.
`file_exists` stands for `cache_path.exists() and cache_path.is_file()`;
`period` is `data.get("period")` (absent request field = `none`); `now`
is `time.time()`, `mtime` the artifact's `st_mtime`, and `max_age` the
`TODAY_CACHE_MAX_AGE_SEC` setting (default 300). -/
def should_use_cache (file_exists : Bool) (period : Option String)
    (now mtime max_age : Int) : Bool :=
  if file_exists then
    if period = some "today" then decide (now - mtime ≤ max_age)
    else true
  else false

-- ============================================================
-- File cleaner (services/file_cleaner.py)
-- ============================================================

/-- `str.split(sep)` for a one-character separator, on character
lists. -/
def splitCharList (sep : Char) : List Char → List (List Char)
  | [] => [[]]
  | c :: rest =>
      let r := splitCharList sep rest
      if c = sep then [] :: r
      else
        match r with
        | [] => [[c]]
        | g :: gs => (c :: g) :: gs

/-- `'/'.join(parts)` on character lists. -/
def joinWithSlash : List (List Char) → List Char
  | [] => []
  | [g] => g
  | g :: gs => g ++ '/' :: joinWithSlash gs

/-- Python `str.startswith(pre)` (equivalently Lean `String.startsWith`),
computed on the underlying character lists. -/
def strStartsWith (s pre : String) : Bool :=
  pre.toList.isPrefixOf s.toList

/-- The component loop of `os.path.normpath` (POSIX flavor): drop `.`
and empty components, resolve `..` against preceding components (except
at an absolute root or after an unresolved `..`). -/
def normpathFold (initialSlashes : Nat) (comps : List (List Char)) :
    List (List Char) :=
  comps.foldl
    (fun acc comp =>
      if comp = [] ∨ comp = ['.'] then acc
      else if comp ≠ ['.', '.'] ∨ (initialSlashes = 0 ∧ acc = []) ∨
          acc.getLast? = some ['.', '.'] then acc ++ [comp]
      else if acc ≠ [] then acc.dropLast
      else acc)
    []

/-- `os.path.normpath(filepath)` (file_cleaner.py line 60), POSIX
semantics: a doubled leading slash is kept exactly when the path starts
with exactly two. -/
def normpath (path : String) : String :=
  if path = "" then "."
  else
    let cs := path.toList
    let initialSlashes : Nat :=
      if cs.take 2 = ['/', '/'] ∧ cs.take 3 ≠ ['/', '/', '/'] then 2
      else if cs.take 1 = ['/'] then 1
      else 0
    let comps := normpathFold initialSlashes (splitCharList '/' cs)
    let res := List.replicate initialSlashes '/' ++ joinWithSlash comps
    if res = [] then "." else String.mk res

/-- `TARGET_DIRECTORY` (file_cleaner.py line 43). -/
def TARGET_DIRECTORY : String := "/data/raw_parses"

/-- `FORBIDDEN_PATHS` (file_cleaner.py lines 46-49). -/
def FORBIDDEN_PATHS : List String := ["/data/temp", "/data/telegram_parser_session"]

/-- `is_path_safe` (file_cleaner.py lines 52-73). -/
def is_path_safe (filepath : String) : Bool :=
  let normalized := normpath filepath
  if ! strStartsWith normalized TARGET_DIRECTORY then false
  else if FORBIDDEN_PATHS.any (fun f => strStartsWith normalized f) then false
  else true

/-- One file met by the `os.walk` scan of `cleanup_old_files`: its path,
`st_mtime` and `st_size`. -/
structure FileEntry where
  path : String
  mtime : Int
  size : Int
deriving Repr, DecidableEq

/-- `cleanup_old_files` (file_cleaner.py lines 111-198), restricted to
its deletion decisions: from the candidate files produced by the
directory walk, exactly those passing `is_path_safe` whose modification
time is before the cutoff are deleted (lines 150-161).  Returns the list
of deleted files. -/
def cleanup_old_files (files : List FileEntry) (cutoff : Int) : List FileEntry :=
  files.filter (fun f => is_path_safe f.path && decide (f.mtime < cutoff))

/-- Spec-side definition (not from the source), for comparison with
`is_path_safe`: a path is inside a directory when its normalized form is
the directory itself or a proper descendant of it. -/
def pathInsideDir (p dir : String) : Bool :=
  let np := (normpath p).toList
  let d := dir.toList
  np = d || (d ++ ['/']).isPrefixOf np

-- ============================================================
-- Scrape serialization (routers/reports.py lines 65-66, 380-411 and
-- routers/parser.py lines 70, 152)
-- ============================================================

/-- Where a task is in its handler: before the scrape, inside the
external-call body (`parse_telegram_channels` running against the
Telethon client), or finished. -/
inductive ScrapePhase where
  | idle
  | scraping
  | done
deriving DecidableEq, Repr

/-- Which endpoint the task entered through.  `viaReports` is
`parse_and_generate_report` (routers/reports.py), whose scrape sits
inside `async with PARSER_LOCK`; `viaParser` is `/api/parser/parse` or
`/api/parser/parse-and-save` (routers/parser.py lines 70 and 152), which
call `parse_telegram_channels` directly with no lock. -/
inductive ScrapeRoute where
  | viaReports
  | viaParser
deriving DecidableEq, Repr

/-- Interleaving state of `n` concurrent request handlers plus the
single `PARSER_LOCK`: each task's phase, and the lock's holder. -/
structure ScrapeSystem (n : Nat) where
  phase : Fin n → ScrapePhase
  lockHolder : Option (Fin n)

/-- Pointwise phase update used by the scrape-interleaving steps. -/
def setPhase {n : Nat} (ph : Fin n → ScrapePhase) (i : Fin n)
    (v : ScrapePhase) : Fin n → ScrapePhase :=
  fun j => if j = i then v else ph j

/-- Task interleaving steps, as the code structures them.  A reports
task may enter its external-call body only by acquiring the free
`PARSER_LOCK` (`async with PARSER_LOCK:` wrapping the
`parse_telegram_channels` call), and leaving the body releases the lock
whether the body returned or raised (`async with` semantics).  A parser
task enters and leaves its external-call body without touching the
lock. -/
inductive ScrapeStep {n : Nat} (route : Fin n → ScrapeRoute) :
    ScrapeSystem n → ScrapeSystem n → Prop where
  | acquireAndScrape (s : ScrapeSystem n) (i : Fin n) :
      route i = .viaReports → s.phase i = .idle → s.lockHolder = none →
      ScrapeStep route s ⟨setPhase s.phase i .scraping, some i⟩
  | finishReports (s : ScrapeSystem n) (i : Fin n) :
      route i = .viaReports → s.phase i = .scraping → s.lockHolder = some i →
      ScrapeStep route s ⟨setPhase s.phase i .done, none⟩
  | startParser (s : ScrapeSystem n) (i : Fin n) :
      route i = .viaParser → s.phase i = .idle →
      ScrapeStep route s ⟨setPhase s.phase i .scraping, s.lockHolder⟩
  | finishParser (s : ScrapeSystem n) (i : Fin n) :
      route i = .viaParser → s.phase i = .scraping →
      ScrapeStep route s ⟨setPhase s.phase i .done, s.lockHolder⟩

/-- All handlers waiting to run, lock free. -/
def initScrapeSystem (n : Nat) : ScrapeSystem n :=
  ⟨fun _ => .idle, none⟩

/-- States the system can reach from the initial one by handler steps. -/
inductive ScrapeReachable {n : Nat} (route : Fin n → ScrapeRoute) :
    ScrapeSystem n → Prop where
  | init : ScrapeReachable route (initScrapeSystem n)
  | step {s s' : ScrapeSystem n} :
      ScrapeReachable route s → ScrapeStep route s s' → ScrapeReachable route s'

-- ============================================================
-- Report generator (services/report_generator.py)
-- ============================================================

/-- The backquote character, written by code point to keep source text
plain. -/
def backquoteChar : Char := Char.ofNat 96

/-- Opening curly bracket, written by code point. -/
def lbraceChar : Char := Char.ofNat 123

/-- Closing curly bracket, written by code point. -/
def rbraceChar : Char := Char.ofNat 125

/-- The whitespace set of Python's `str.strip()` and of `\s` on ASCII
text: space, tab, newline, carriage return, vertical tab, form feed. -/
def pySpace (c : Char) : Bool :=
  c = ' ' || c = '\t' || c = '\n' || c = '\r' || c = Char.ofNat 11 || c = Char.ofNat 12

/-- `text.strip()` on a character list. -/
def pyStripList (cs : List Char) : List Char :=
  ((cs.dropWhile pySpace).reverse.dropWhile pySpace).reverse

/-- `re.sub(r'^BQBQBQ(?:json)?\s*\n?', '', text, flags=IGNORECASE)`
(report_generator.py line 65, `BQ` = backquote): on already-stripped
text, drop a leading code fence, an optional case-insensitive `json`
marker, and the whitespace after them. -/
def dropFenceStart (cs : List Char) : List Char :=
  if cs.take 3 = [backquoteChar, backquoteChar, backquoteChar] then
    let rest := cs.drop 3
    let rest2 :=
      if (rest.take 4).map Char.toLower = ['j', 's', 'o', 'n'] then rest.drop 4
      else rest
    rest2.dropWhile pySpace
  else cs

/-- `re.sub(r'\n?BQBQBQ\s*$', '', text)` (report_generator.py line 67) on
text with no trailing whitespace: drop a trailing code fence and one
newline immediately before it. -/
def dropFenceEnd (cs : List Char) : List Char :=
  let r := cs.reverse
  if r.take 3 = [backquoteChar, backquoteChar, backquoteChar] then
    let r2 := r.drop 3
    let r3 := if r2.take 1 = ['\n'] then r2.drop 1 else r2
    r3.reverse
  else cs

/-- The first-to-last-brace fallback of `sanitize_json_response`
(report_generator.py lines 69-75): if an opening brace occurs before the
last closing brace, keep exactly the text between them inclusive. -/
def braceSlice (cs : List Char) : List Char :=
  match cs.findIdx? (fun c => c = lbraceChar), cs.reverse.findIdx? (fun c => c = rbraceChar) with
  | some f, some rj =>
      let l := cs.length - 1 - rj
      if f < l then (cs.drop f).take (l - f + 1) else cs
  | _, _ => cs

/-- `sanitize_json_response` (report_generator.py lines 44-77). -/
def sanitize_json_response (raw : String) : String :=
  if raw = "" then raw
  else
    let t1 := pyStripList raw.toList
    let t2 := dropFenceEnd (dropFenceStart t1)
    let t3 := braceSlice t2
    String.mk (pyStripList t3)

/-- Append a character to the current object buffer, if one is open
(characters of the buffer are stored in reverse). -/
def pushCur (cur : Option (List Char)) (c : Char) : Option (List Char) :=
  cur.map (fun buf => c :: buf)

/-- The character loop of `extract_items_from_truncated_json`
(report_generator.py lines 227-274), one constructor argument per Python
loop variable: remaining text, `in_string`, `escape`, `brace_depth`, the
current top-level object slice (`current_start`, carried here as the
characters accumulated since the opening brace), and `results` (in
reverse).  `objParse` stands for the stdlib `json.loads`, with `none`
for `json.JSONDecodeError`. -/
def scanItems (objParse : String → Option PyData) :
    List Char → Bool → Bool → Nat → Option (List Char) → List PyData → List PyData
  | [], _, _, _, _, results => results.reverse
  | c :: rest, inString, esc, depth, cur, results =>
    if inString then
      if esc then scanItems objParse rest true false depth (pushCur cur c) results
      else if c = '\\' then
        scanItems objParse rest true true depth (pushCur cur c) results
      else if c = '\"' then
        scanItems objParse rest false esc depth (pushCur cur c) results
      else scanItems objParse rest true esc depth (pushCur cur c) results
    else if c = '\"' then
      scanItems objParse rest true esc depth (pushCur cur c) results
    else if c = lbraceChar then
      let cur' := if depth = 0 then some [c] else pushCur cur c
      scanItems objParse rest inString esc (depth + 1) cur' results
    else if c = rbraceChar then
      if depth > 0 then
        if depth = 1 then
          match pushCur cur c with
          | some buf =>
              match objParse (String.mk buf.reverse) with
              | some obj => scanItems objParse rest inString esc 0 none (obj :: results)
              | none => scanItems objParse rest inString esc 0 none results
          | none => scanItems objParse rest inString esc 0 none results
        else scanItems objParse rest inString esc (depth - 1) (pushCur cur c) results
      else scanItems objParse rest inString esc depth (pushCur cur c) results
    else if c = ']' then
      if depth = 0 then results.reverse
      else scanItems objParse rest inString esc depth (pushCur cur c) results
    else scanItems objParse rest inString esc depth (pushCur cur c) results

/-- The suffix of the text starting at the first occurrence of `pat`
(`text.find(pat)` in report_generator.py line 221). -/
def dropToSub (pat : List Char) : List Char → Option (List Char)
  | [] => if pat = [] then some [] else none
  | c :: rest =>
      if pat.isPrefixOf (c :: rest) then some (c :: rest)
      else dropToSub pat rest

/-- `extract_items_from_truncated_json` (report_generator.py lines
218-276): locate the `"items"` key and the following opening square
bracket, then run the character loop on the text after it. -/
def extract_items_from_truncated_json (objParse : String → Option PyData)
    (text : String) : List PyData :=
  match dropToSub "\"items\"".toList text.toList with
  | none => []
  | some tailAtKey =>
      match tailAtKey.dropWhile (fun c => c ≠ '[') with
      | [] => []
      | _ :: afterBracket => scanItems objParse afterBracket false false 0 none []

/-- `generate_report_data` (report_generator.py lines 139-303), restricted
to its response-handling core: sanitize the raw LLM response, try a full
JSON parse (`objParse` abstracts `json.loads`, `none` meaning
`json.JSONDecodeError`), stamp `generation_date` on success; on parse
failure fall back to `extract_items_from_truncated_json` and fail only
when it salvages nothing (the `ValueError` raise at lines 283-285).
A successful parse to a non-dict raises `TypeError` at the
`generation_date` assignment (uncaught in the Python source). -/
def generate_report_data (objParse : String → Option PyData)
    (raw_response : String) (today : String) : Except String PyData :=
  let clean_response := sanitize_json_response raw_response
  match objParse clean_response with
  | some (.pyDict fs) =>
      .ok (.pyDict (alistInsert fs "generation_date" (.pyStr today)))
  | some _ => .error "TypeError"
  | none =>
      let raw_text := if raw_response = "" then "" else sanitize_json_response raw_response
      let parsed_items := extract_items_from_truncated_json objParse raw_text
      if parsed_items.isEmpty then
        .error "LLM returned invalid JSON, no objects could be extracted"
      else
        .ok (.pyDict [("items", .pyList parsed_items),
                      ("generation_date", .pyStr today)])

-- ============================================================
-- Helper lemmas
-- ============================================================

theorem alistLookup_ne_nil {α : Type} {m : List (String × α)} {k : String} {v : α}
    (h : alistLookup m k = some v) : m.isEmpty = false := by
  cases m with
  | nil => simp [alistLookup] at h
  | cons p rest => rfl

theorem truthy_of_statusOf {d : PyData} (h : statusOf d ≠ "unknown") :
    truthy d = true := by
  cases d with
  | pyNone => exact absurd rfl h
  | pyStr s => exact absurd rfl h
  | pyNum n => exact absurd rfl h
  | pyList xs => exact absurd rfl h
  | pyDict fs =>
      cases hfs : alistLookup fs "status" with
      | none => exact absurd (by simp [statusOf, hfs]) h
      | some v =>
          cases v with
          | pyStr s =>
              have hne : fs.isEmpty = false := alistLookup_ne_nil hfs
              simp [truthy, hne]
          | pyNone => exact absurd (by simp [statusOf, hfs]) h
          | pyNum n => exact absurd (by simp [statusOf, hfs]) h
          | pyList xs => exact absurd (by simp [statusOf, hfs]) h
          | pyDict g => exact absurd (by simp [statusOf, hfs]) h

theorem safe_set_task_not_none (s : MemState) (now : Int) (id : String)
    (d : PyData) (status : String) (hd : d ≠ .pyNone) :
    safe_set_task s now id d status =
      if TASK_TTL_RULES status > 0 then
        ⟨alistInsert s.task_memory id d,
         alistInsert s.memory_ttl id (now + TASK_TTL_RULES status)⟩
      else ⟨alistInsert s.task_memory id d, alistErase s.memory_ttl id⟩ := by
  cases d with
  | pyNone => exact absurd rfl hd
  | pyStr v => rfl
  | pyNum v => rfl
  | pyList v => rfl
  | pyDict v => rfl

-- ============================================================
-- Claim theorems
-- ============================================================

/-- Claim C3: the cache admission decision is exactly: false when the
artifact file does not exist; for the rolling "today" window, true iff
`now - mtime <= max_age`; for any other window, true unconditionally when
the file exists.  In particular a "today" artifact aged 301s with
max_age 300s is rejected while one aged 100s is accepted. -/
theorem cache_admission_policy (period : Option String) (now mtime max_age : Int) :
    should_use_cache false period now mtime max_age = false ∧
    (period = some "today" →
      (should_use_cache true period now mtime max_age = true ↔ now - mtime ≤ max_age)) ∧
    (period ≠ some "today" → should_use_cache true period now mtime max_age = true) ∧
    should_use_cache true (some "today") now (now - 301) 300 = false ∧
    should_use_cache true (some "today") now (now - 100) 300 = true := by
  refine ⟨rfl, ?_, ?_, ?_, ?_⟩
  · intro h
    simp [should_use_cache, h]
  · intro h
    simp [should_use_cache, h]
  · simp only [should_use_cache, if_pos rfl, if_true]
    simp only [decide_eq_false_iff_not]
    omega
  · simp only [should_use_cache, if_pos rfl, if_true]
    simp only [decide_eq_true_eq]
    omega

/-- Witness for C3 at concrete inputs: a 100s-old "today" artifact is
admitted, and an existing "yesterday" artifact is admitted regardless of
age. -/
theorem cache_admission_policy_witness :
    should_use_cache true (some "today") 1000 900 300 = true ∧
    should_use_cache true (some "yesterday") 1000 0 300 = true := by
  constructor
  · exact ((cache_admission_policy (some "today") 1000 900 300).2.1 rfl).mpr (by omega)
  · exact (cache_admission_policy (some "yesterday") 1000 0 300).2.2.1 (by simp)

/-- Claim C6: a put with a non-null payload stores the payload and
records the expiry from the fixed status-to-TTL table: now+300 for
`completed`/`error`, no TTL record for `processing`/`pending`, and
now+3600 for any unrecognized status. -/
theorem put_computes_ttl_from_table (s : MemState) (now : Int) (id : String)
    (d : PyData) (status : String) (hd : d ≠ .pyNone) :
    alistLookup (safe_set_task s now id d status).task_memory id = some d ∧
    alistLookup (safe_set_task s now id d status).memory_ttl id =
      (if status = "completed" ∨ status = "error" then some (now + 300)
       else if status = "processing" ∨ status = "pending" then none
       else some (now + 3600)) := by
  rw [safe_set_task_not_none s now id d status hd]
  by_cases h1 : status = "completed"
  · subst h1
    constructor
    · simp [TASK_TTL_RULES, alistLookup_insert_self]
    · simp [TASK_TTL_RULES, alistLookup_insert_self]
  · by_cases h2 : status = "processing"
    · subst h2
      constructor
      · simp [TASK_TTL_RULES, alistLookup_insert_self]
      · simp [TASK_TTL_RULES, alistLookup_erase_self]
    · by_cases h3 : status = "error"
      · subst h3
        constructor
        · simp [TASK_TTL_RULES, alistLookup_insert_self]
        · simp [TASK_TTL_RULES, alistLookup_insert_self]
      · by_cases h4 : status = "pending"
        · subst h4
          constructor
          · simp [TASK_TTL_RULES, alistLookup_insert_self]
          · simp [TASK_TTL_RULES, alistLookup_erase_self]
        · constructor
          · simp [TASK_TTL_RULES, h1, h2, h3, h4, alistLookup_insert_self]
          · simp [TASK_TTL_RULES, h1, h2, h3, h4, alistLookup_insert_self]

/-- Witness for C6: putting a completed task at time 100 records expiry
400, and a processing task gets no TTL record. -/
theorem put_computes_ttl_from_table_witness :
    alistLookup (safe_set_task ⟨[], []⟩ 100 "t1"
      (.pyDict [("status", .pyStr "completed")]) "completed").memory_ttl "t1" =
        some 400 ∧
    alistLookup (safe_set_task ⟨[], []⟩ 100 "t2"
      (.pyDict [("status", .pyStr "processing")]) "processing").memory_ttl "t2" =
        none := by
  constructor
  · have h := put_computes_ttl_from_table ⟨[], []⟩ 100 "t1"
      (.pyDict [("status", .pyStr "completed")]) "completed" (by simp)
    rw [h.2]
    decide
  · have h := put_computes_ttl_from_table ⟨[], []⟩ 100 "t2"
      (.pyDict [("status", .pyStr "processing")]) "processing" (by simp)
    rw [h.2]
    decide

/-- Claim C7: a put with a null payload deletes the entry and its TTL
record unconditionally, a get of that id immediately afterwards returns
"not found", and `safe_remove_task` is the same operation as a
null-payload put. -/
theorem put_null_removes_unconditionally (s : MemState) (now now2 : Int)
    (id : String) (status : String) :
    alistLookup (safe_set_task s now id .pyNone status).task_memory id = none ∧
    alistLookup (safe_set_task s now id .pyNone status).memory_ttl id = none ∧
    safe_get_task (safe_set_task s now id .pyNone status) now2 id =
      (safe_set_task s now id .pyNone status, none) ∧
    safe_remove_task s now id = safe_set_task s now id .pyNone status := by
  have h1 : alistLookup (safe_set_task s now id .pyNone status).memory_ttl id = none :=
    alistLookup_erase_self _ _
  have h2 : alistLookup (safe_set_task s now id .pyNone status).task_memory id = none :=
    alistLookup_erase_self _ _
  refine ⟨h2, h1, ?_, rfl⟩
  simp [safe_get_task, h1, h2]

/-- Claim C1: an entry whose stored status is `processing` or `pending`
is never removed by time-based reclamation, no matter how much time has
elapsed: `cleanup_expired_tasks` keeps both its payload and its TTL
record untouched, and `safe_get_task`'s lazy eviction also leaves it in
place. -/
theorem protected_status_never_reclaimed
    (s : MemState) (now : Int) (id : String) (d : PyData)
    (hmem : alistLookup s.task_memory id = some d)
    (hst : statusOf d = "processing" ∨ statusOf d = "pending") :
    alistLookup (cleanup_expired_tasks s now).1.task_memory id = some d ∧
    alistLookup (cleanup_expired_tasks s now).1.memory_ttl id =
      alistLookup s.memory_ttl id ∧
    alistLookup (safe_get_task s now id).1.task_memory id = some d := by
  have hshc : should_cleanup_by_status (statusOf d) = false := by
    rcases hst with h | h <;> rw [h] <;> decide
  have hkey : ∀ p ∈ s.memory_ttl.filter (cleanup_candidate s now), p.1 ≠ id := by
    intro p hp hpid
    have hc : cleanup_candidate s now p = true := (List.mem_filter.mp hp).2
    rw [cleanup_candidate, hpid, hmem] at hc
    simp [hshc] at hc
  refine ⟨?_, ?_, ?_⟩
  · exact (alistLookup_foldl_erase_ne _ _ _ hkey).trans hmem
  · exact alistLookup_foldl_erase_ne _ _ _ hkey
  · cases httl : alistLookup s.memory_ttl id with
    | none => simp [safe_get_task, httl, hmem]
    | some e =>
        by_cases hexp : now > e
        · cases h : truthy d <;>
            simp [safe_get_task, httl, hexp, hmem, hshc, h]
        · simp [safe_get_task, httl, hexp, hmem]

/-- Witness for C1: a `processing` entry whose TTL expired long ago
survives both a reclaim pass and a read. -/
theorem protected_status_never_reclaimed_witness :
    alistLookup (cleanup_expired_tasks
      ⟨[("p1", .pyDict [("status", .pyStr "processing")])], [("p1", 5)]⟩
      99999).1.task_memory "p1" = some (.pyDict [("status", .pyStr "processing")]) := by
  exact (protected_status_never_reclaimed
    ⟨[("p1", .pyDict [("status", .pyStr "processing")])], [("p1", 5)]⟩
    99999 "p1" (.pyDict [("status", .pyStr "processing")]) rfl (Or.inl rfl)).1

/-- Claim C2: an entry with stored status `completed` or `error` whose
expiry has passed is removed by the very next `safe_get_task` as a side
effect of the read, which returns "not found" — no reclaim pass needed. -/
theorem expired_evictable_lazy_eviction
    (s : MemState) (now : Int) (id : String) (e : Int) (d : PyData)
    (httl : alistLookup s.memory_ttl id = some e)
    (hexp : now > e)
    (hmem : alistLookup s.task_memory id = some d)
    (hst : statusOf d = "completed" ∨ statusOf d = "error") :
    (safe_get_task s now id).2 = none ∧
    alistLookup (safe_get_task s now id).1.task_memory id = none ∧
    alistLookup (safe_get_task s now id).1.memory_ttl id = none := by
  have hne : statusOf d ≠ "unknown" := by
    rcases hst with h | h <;> rw [h] <;> decide
  have htr : truthy d = true := truthy_of_statusOf hne
  have hshc : should_cleanup_by_status (statusOf d) = true := by
    rcases hst with h | h <;> rw [h] <;> decide
  simp [safe_get_task, httl, hexp, hmem, htr, hshc, alistLookup_erase_self]

/-- Witness for C2: a `completed` entry with expiry 10 read at time 11 is
gone and the read returns "not found". -/
theorem expired_evictable_lazy_eviction_witness :
    (safe_get_task
      ⟨[("c1", .pyDict [("status", .pyStr "completed")])], [("c1", 10)]⟩
      11 "c1").2 = none := by
  exact (expired_evictable_lazy_eviction
    ⟨[("c1", .pyDict [("status", .pyStr "completed")])], [("c1", 10)]⟩
    11 "c1" 10 (.pyDict [("status", .pyStr "completed")]) rfl (by decide)
    rfl (Or.inl rfl)).1

/-- Claim C8: reclamation is idempotent on the registry: a second
`cleanup_expired_tasks` call, at any time at which no entry that
survived the first call has newly expired, evicts 0 entries and leaves
both mappings exactly as the first call left them. -/
theorem reclaim_idempotent (s : MemState) (now now2 : Int)
    (hmono : ∀ p ∈ (cleanup_expired_tasks s now).1.memory_ttl,
      now2 > p.2 → now > p.2) :
    cleanup_expired_tasks (cleanup_expired_tasks s now).1 now2 =
      ((cleanup_expired_tasks s now).1, 0) := by
  have exp_task : (cleanup_expired_tasks s now).1.task_memory =
      (s.memory_ttl.filter (cleanup_candidate s now)).foldl
        (fun m p => alistErase m p.1) s.task_memory := rfl
  have exp_ttl : (cleanup_expired_tasks s now).1.memory_ttl =
      (s.memory_ttl.filter (cleanup_candidate s now)).foldl
        (fun m p => alistErase m p.1) s.memory_ttl := rfl
  have hfilter : ((cleanup_expired_tasks s now).1.memory_ttl).filter
      (cleanup_candidate (cleanup_expired_tasks s now).1 now2) = [] := by
    rw [List.filter_eq_nil_iff]
    intro p hp hc
    have hp' := hp
    rw [exp_ttl, mem_foldl_erase] at hp'
    obtain ⟨hps, hpne⟩ := hp'
    have hlook : alistLookup (cleanup_expired_tasks s now).1.task_memory p.1 =
        alistLookup s.task_memory p.1 := by
      rw [exp_task]
      exact alistLookup_foldl_erase_ne _ _ _ (fun q hq => Ne.symm (hpne q hq))
    rw [cleanup_candidate, hlook, Bool.and_eq_true] at hc
    have hgt2 : now2 > p.2 := of_decide_eq_true hc.1
    have hgt : now > p.2 := hmono p hp hgt2
    have hc' : cleanup_candidate s now p = true := by
      rw [cleanup_candidate, Bool.and_eq_true]
      exact ⟨decide_eq_true hgt, hc.2⟩
    have hpexp : p ∈ s.memory_ttl.filter (cleanup_candidate s now) :=
      List.mem_filter.mpr ⟨hps, hc'⟩
    exact (hpne p hpexp) rfl
  generalize hS : (cleanup_expired_tasks s now).1 = s₁ at hfilter ⊢
  simp only [cleanup_expired_tasks, hfilter, List.foldl_nil, List.length_nil]

/-- Witness for C8: after reclaiming the single expired completed task
at time 20, a second reclaim at time 20 evicts nothing and changes
nothing. -/
theorem reclaim_idempotent_witness :
    cleanup_expired_tasks
      (cleanup_expired_tasks
        ⟨[("c1", .pyDict [("status", .pyStr "completed")])], [("c1", 10)]⟩ 20).1
      20 =
    ((cleanup_expired_tasks
        ⟨[("c1", .pyDict [("status", .pyStr "completed")])], [("c1", 10)]⟩ 20).1,
      0) := by
  exact reclaim_idempotent
    ⟨[("c1", .pyDict [("status", .pyStr "completed")])], [("c1", 10)]⟩
    20 20 (by decide)

/-- The implicit registry invariant of C10: every id tracked in
`memory_ttl` is also present in `task_memory`. -/
def registryConsistent (s : MemState) : Prop :=
  ∀ k, (alistLookup s.memory_ttl k).isSome = true →
    (alistLookup s.task_memory k).isSome = true

/-- Registry states reachable from the empty registry through the
module's operations. -/
inductive MemReachable : MemState → Prop where
  | empty : MemReachable ⟨[], []⟩
  | set (s : MemState) (now : Int) (id : String) (d : PyData) (status : String) :
      MemReachable s → MemReachable (safe_set_task s now id d status)
  | get (s : MemState) (now : Int) (id : String) :
      MemReachable s → MemReachable (safe_get_task s now id).1
  | remove (s : MemState) (now : Int) (id : String) :
      MemReachable s → MemReachable (safe_remove_task s now id)
  | cleanup (s : MemState) (now : Int) :
      MemReachable s → MemReachable (cleanup_expired_tasks s now).1

theorem lookup_erase_none {α : Type} {m : List (String × α)} {k : String}
    (h : alistLookup m k = none) (k' : String) :
    alistLookup (alistErase m k') k = none := by
  by_cases hk : k = k'
  · rw [hk]
    exact alistLookup_erase_self m k'
  · rw [alistLookup_erase_ne m k' k hk]
    exact h

theorem lookup_foldl_erase_none {α : Type} (l : List (String × Int))
    (m : List (String × α)) (k : String) (h : alistLookup m k = none) :
    alistLookup (l.foldl (fun m p => alistErase m p.1) m) k = none := by
  induction l generalizing m with
  | nil => exact h
  | cons q rest ih => exact ih (alistErase m q.1) (lookup_erase_none h q.1)

theorem alistLookup_foldl_erase_mem {α : Type} (l : List (String × Int))
    (m : List (String × α)) (k : String) (h : ∃ q ∈ l, q.1 = k) :
    alistLookup (l.foldl (fun m p => alistErase m p.1) m) k = none := by
  induction l generalizing m with
  | nil => simp at h
  | cons q rest ih =>
      obtain ⟨r, hr, hrk⟩ := h
      rcases List.mem_cons.mp hr with rfl | hr'
      · rw [List.foldl_cons]
        apply lookup_foldl_erase_none
        rw [← hrk]
        exact alistLookup_erase_self m r.1
      · exact ih (alistErase m q.1) ⟨r, hr', hrk⟩

theorem registryConsistent_erase_both {s : MemState} (h : registryConsistent s)
    (id : String) :
    registryConsistent ⟨alistErase s.task_memory id, alistErase s.memory_ttl id⟩ := by
  intro k hk
  by_cases hke : k = id
  · rw [hke, alistLookup_erase_self] at hk
    simp at hk
  · rw [alistLookup_erase_ne _ _ _ hke] at hk
    rw [alistLookup_erase_ne _ _ _ hke]
    exact h k hk

theorem registryConsistent_set {s : MemState} (h : registryConsistent s)
    (now : Int) (id : String) (d : PyData) (status : String) :
    registryConsistent (safe_set_task s now id d status) := by
  by_cases hd : d = .pyNone
  · subst hd
    exact registryConsistent_erase_both h id
  · rw [safe_set_task_not_none s now id d status hd]
    by_cases hT : TASK_TTL_RULES status > 0
    · rw [if_pos hT]
      intro k hk
      by_cases hki : k = id
      · subst hki
        rw [alistLookup_insert_self]
        rfl
      · rw [alistLookup_insert_ne _ _ _ _ hki] at hk
        rw [alistLookup_insert_ne _ _ _ _ hki]
        exact h k hk
    · rw [if_neg hT]
      intro k hk
      by_cases hki : k = id
      · subst hki
        rw [alistLookup_insert_self]
        rfl
      · rw [alistLookup_erase_ne _ _ _ hki] at hk
        rw [alistLookup_insert_ne _ _ _ _ hki]
        exact h k hk

theorem safe_get_task_state (s : MemState) (now : Int) (id : String) :
    (safe_get_task s now id).1 = s ∨
    (safe_get_task s now id).1 =
      ⟨alistErase s.task_memory id, alistErase s.memory_ttl id⟩ := by
  cases httl : alistLookup s.memory_ttl id with
  | none =>
      left
      simp [safe_get_task, httl]
  | some e =>
      by_cases h : now > e
      · cases hmem : alistLookup s.task_memory id with
        | none =>
            left
            simp [safe_get_task, httl, h, hmem]
        | some t =>
            by_cases ht : truthy t = true
            · by_cases hs : should_cleanup_by_status (statusOf t) = true
              · right
                simp [safe_get_task, httl, h, hmem, ht, hs]
              · left
                simp [safe_get_task, httl, h, hmem, ht, hs]
            · left
              simp [safe_get_task, httl, h, hmem, ht]
      · left
        simp [safe_get_task, httl, h]

theorem registryConsistent_foldl_erase {s : MemState} (h : registryConsistent s)
    (l : List (String × Int)) :
    registryConsistent ⟨l.foldl (fun m p => alistErase m p.1) s.task_memory,
                        l.foldl (fun m p => alistErase m p.1) s.memory_ttl⟩ := by
  intro k hk
  by_cases hall : ∀ q ∈ l, q.1 ≠ k
  · rw [alistLookup_foldl_erase_ne _ _ _ hall] at hk
    rw [alistLookup_foldl_erase_ne _ _ _ hall]
    exact h k hk
  · push_neg at hall
    obtain ⟨q, hq, hqk⟩ := hall
    rw [alistLookup_foldl_erase_mem _ _ _ ⟨q, hq, hqk⟩] at hk
    simp at hk

/-- Claim C10: starting from the empty registry, every operation of the
module — put (including null-payload removal), get with lazy eviction,
remove, and the reclaim pass — preserves the invariant that every id in
the TTL-tracking map is also a key of the task map. -/
theorem registry_ttl_subset_invariant (s : MemState) (h : MemReachable s) :
    registryConsistent s := by
  induction h with
  | empty =>
      intro k hk
      simp [alistLookup] at hk
  | set s now id d status _ ih => exact registryConsistent_set ih now id d status
  | get s now id _ ih =>
      rcases safe_get_task_state s now id with heq | heq <;> rw [heq]
      · exact ih
      · exact registryConsistent_erase_both ih id
  | remove s now id _ ih => exact registryConsistent_erase_both ih id
  | cleanup s now _ ih => exact registryConsistent_foldl_erase ih _

theorem is_path_safe_characterization (p : String) :
    is_path_safe p = (strStartsWith (normpath p) TARGET_DIRECTORY &&
      ! FORBIDDEN_PATHS.any (fun f => strStartsWith (normpath p) f)) := by
  simp only [is_path_safe]
  cases h1 : strStartsWith (normpath p) TARGET_DIRECTORY <;>
    cases h2 : FORBIDDEN_PATHS.any (fun f => strStartsWith (normpath p) f) <;>
      simp [h1, h2]

/-- Mechanical check for C10 at a concrete reachable state: after one
put of a completed task, the id tracked by the TTL map is present in the
task map. -/
theorem registry_ttl_subset_invariant_witness :
    (alistLookup (safe_set_task ⟨[], []⟩ 0 "a"
      (.pyDict [("status", .pyStr "completed")]) "completed").task_memory
      "a").isSome = true := by
  exact registry_ttl_subset_invariant _
    (MemReachable.set ⟨[], []⟩ 0 "a"
      (.pyDict [("status", .pyStr "completed")]) "completed" MemReachable.empty)
    "a" (by decide)

/-- Counterexample to claim C5 as stated: `is_path_safe` checks a string
prefix of the normalized path, so the candidate path
`/data/raw_parses_evil/secret.txt` — which is NOT inside the target
directory `/data/raw_parses` — is accepted, and `cleanup_old_files`
deletes it when it is old enough. -/
theorem path_safety_prefix_counterexample :
    pathInsideDir "/data/raw_parses_evil/secret.txt" TARGET_DIRECTORY = false ∧
    is_path_safe "/data/raw_parses_evil/secret.txt" = true ∧
    cleanup_old_files [⟨"/data/raw_parses_evil/secret.txt", 0, 1⟩] 100 =
      [⟨"/data/raw_parses_evil/secret.txt", 0, 1⟩] := by
  refine ⟨rfl, rfl, rfl⟩

/-- Claim C5 (amended): `cleanup_old_files` deletes only files accepted
by `is_path_safe` and older than the cutoff; every deleted path's
normalized form starts with the string `/data/raw_parses` and does not
start with any forbidden prefix (`/data/temp`,
`/data/telegram_parser_session`).  The containment test is a string
prefix, not directory containment, so sibling paths sharing the prefix
(e.g. `/data/raw_parses_evil/...`) also pass. -/
theorem cleanup_deletes_only_safe_paths (files : List FileEntry) (cutoff : Int)
    (f : FileEntry) (hf : f ∈ cleanup_old_files files cutoff) :
    is_path_safe f.path = true ∧
    strStartsWith (normpath f.path) TARGET_DIRECTORY = true ∧
    (∀ forb ∈ FORBIDDEN_PATHS, strStartsWith (normpath f.path) forb = false) ∧
    f.mtime < cutoff := by
  have hand := (List.mem_filter.mp hf).2
  rw [Bool.and_eq_true] at hand
  obtain ⟨hsafe, hmt⟩ := hand
  have hmt' : f.mtime < cutoff := of_decide_eq_true hmt
  have hsafe' := hsafe
  rw [is_path_safe_characterization, Bool.and_eq_true] at hsafe'
  obtain ⟨h1, h2⟩ := hsafe'
  have h2' : FORBIDDEN_PATHS.any (fun forb => strStartsWith (normpath f.path) forb)
      = false := by
    simpa using h2
  refine ⟨hsafe, h1, ?_, hmt'⟩
  intro forb hforb
  have hall := List.any_eq_false.mp h2'
  exact Bool.eq_false_iff.mpr (hall forb hforb)

/-- Witness for the amended C5 at a concrete deletion: an old file
directly under the storage root is deleted, and its path indeed carries
the root prefix. -/
theorem cleanup_deletes_only_safe_paths_witness :
    is_path_safe "/data/raw_parses/old.json" = true ∧
    strStartsWith (normpath "/data/raw_parses/old.json") TARGET_DIRECTORY = true := by
  have h := cleanup_deletes_only_safe_paths
    [⟨"/data/raw_parses/old.json", 0, 1⟩] 100
    ⟨"/data/raw_parses/old.json", 0, 1⟩ (by decide)
  exact ⟨h.1, h.2.1⟩

-- ============================================================
-- C9: scrape serialization
-- ============================================================

/-- A route assignment with two handlers both entering through the
unlocked parser endpoints. -/
def twoParserRoutes : Fin 2 → ScrapeRoute := fun _ => .viaParser

/-- Counterexample to claim C9 as stated: the parser-router endpoints
call the scraper without acquiring `PARSER_LOCK`, so two concurrent
scrape attempts entering through them reach a state in which both are
inside their external-call bodies at once. -/
theorem concurrent_scrapes_counterexample :
    ∃ s : ScrapeSystem 2, ScrapeReachable twoParserRoutes s ∧
      s.phase 0 = .scraping ∧ s.phase 1 = .scraping := by
  refine ⟨⟨setPhase (setPhase (fun _ => .idle) 0 .scraping) 1 .scraping, none⟩,
    ?_, rfl, rfl⟩
  have h1 : ScrapeStep twoParserRoutes (initScrapeSystem 2)
      ⟨setPhase (fun _ => .idle) 0 .scraping, none⟩ :=
    ScrapeStep.startParser _ 0 rfl rfl
  have h2 : ScrapeStep twoParserRoutes
      ⟨setPhase (fun _ => .idle) 0 .scraping, none⟩
      ⟨setPhase (setPhase (fun _ => .idle) 0 .scraping) 1 .scraping, none⟩ :=
    ScrapeStep.startParser _ 1 rfl rfl
  exact ScrapeReachable.step (ScrapeReachable.step ScrapeReachable.init h1) h2

/-- Claim C9 (amended): scrapes entered through the report-generation
endpoint do hold `PARSER_LOCK` for the whole external-call body and
release it on exit even after an error, so no two report-path scrapes
are ever in their external-call bodies concurrently; process-wide
exclusion fails only because the parser-router endpoints bypass the
lock. -/
theorem report_scrapes_mutually_excluded {n : Nat} (route : Fin n → ScrapeRoute)
    (s : ScrapeSystem n) (h : ScrapeReachable route s) :
    (∀ i, route i = .viaReports → s.phase i = .scraping → s.lockHolder = some i) ∧
    (∀ i j, route i = .viaReports → route j = .viaReports →
      s.phase i = .scraping → s.phase j = .scraping → i = j) := by
  have key : ∀ i, route i = .viaReports → s.phase i = .scraping →
      s.lockHolder = some i := by
    induction h with
    | init =>
        intro i _ hp
        exact ScrapePhase.noConfusion hp
    | @step s1 s2 hr hs ih =>
        cases hs with
        | acquireAndScrape i hroute hidle hlock =>
            intro j hj hpj
            by_cases hij : j = i
            · subst hij
              rfl
            · have hpj' : s1.phase j = .scraping := by
                simpa [setPhase, hij] using hpj
              have hlj := ih j hj hpj'
              rw [hlock] at hlj
              cases hlj
        | finishReports i hroute hp hlock =>
            intro j hj hpj
            by_cases hij : j = i
            · subst hij
              simp [setPhase] at hpj
            · have hpj' : s1.phase j = .scraping := by
                simpa [setPhase, hij] using hpj
              have hlj := ih j hj hpj'
              rw [hlock] at hlj
              exact absurd (Option.some.inj hlj).symm hij
        | startParser i hroute hidle =>
            intro j hj hpj
            by_cases hij : j = i
            · subst hij
              rw [hroute] at hj
              cases hj
            · have hpj' : s1.phase j = .scraping := by
                simpa [setPhase, hij] using hpj
              exact ih j hj hpj'
        | finishParser i hroute hp =>
            intro j hj hpj
            by_cases hij : j = i
            · subst hij
              rw [hroute] at hj
              cases hj
            · have hpj' : s1.phase j = .scraping := by
                simpa [setPhase, hij] using hpj
              exact ih j hj hpj'
  refine ⟨key, ?_⟩
  intro i j hi hj hpi hpj
  have h1 := key i hi hpi
  have h2 := key j hj hpj
  rw [h1] at h2
  exact Option.some.inj h2

/-- A route assignment with a single report-path handler. -/
def oneReportRoute : Fin 1 → ScrapeRoute := fun _ => .viaReports

/-- Witness for the amended C9 at a concrete reachable state: a
report-path handler inside its external-call body holds the lock. -/
theorem report_scrapes_mutually_excluded_witness :
    (⟨setPhase (fun _ => .idle) 0 .scraping, some 0⟩ : ScrapeSystem 1).lockHolder
      = some 0 := by
  have hreach : ScrapeReachable oneReportRoute
      ⟨setPhase (fun _ => .idle) 0 .scraping, some 0⟩ :=
    ScrapeReachable.step ScrapeReachable.init
      (ScrapeStep.acquireAndScrape _ 0 rfl rfl rfl)
  exact (report_scrapes_mutually_excluded oneReportRoute _ hreach).1 0 rfl rfl

theorem scanItems_sound (objParse : String → Option PyData) :
    ∀ (cs : List Char) (b1 b2 : Bool) (depth : Nat) (cur : Option (List Char))
      (acc : List PyData),
      (∀ x ∈ acc, ∃ str, objParse str = some x) →
      ∀ x ∈ scanItems objParse cs b1 b2 depth cur acc,
        ∃ str, objParse str = some x := by
  intro cs
  induction cs with
  | nil =>
      intro b1 b2 depth cur acc hacc x hx
      rw [scanItems] at hx
      exact hacc x (List.mem_reverse.mp hx)
  | cons c rest ih =>
      intro b1 b2 depth cur acc hacc x hx
      rw [scanItems] at hx
      repeat' split at hx
      all_goals
        first
          | exact ih _ _ _ _ _ hacc x hx
          | exact hacc x (List.mem_reverse.mp hx)
          | (rename_i obj heq
             refine ih _ _ _ _ _ ?_ x hx
             intro y hy
             rcases List.mem_cons.mp hy with rfl | hy'
             · exact ⟨_, heq⟩
             · exact hacc y hy')

/-- Claim C4: when the full LLM response fails to parse as JSON,
`generate_report_data` falls back to the truncated-item salvage: it
fails with an error exactly when zero complete objects can be salvaged,
otherwise returns a report whose `items` are exactly the salvaged
records, each of which is the successful parse of a complete object
substring of the (sanitized) response. -/
theorem truncated_json_fallback (objParse : String → Option PyData)
    (raw_response today : String)
    (hfail : objParse (sanitize_json_response raw_response) = none) :
    (extract_items_from_truncated_json objParse
        (sanitize_json_response raw_response) = [] →
      generate_report_data objParse raw_response today =
        .error "LLM returned invalid JSON, no objects could be extracted") ∧
    (∀ items, extract_items_from_truncated_json objParse
        (sanitize_json_response raw_response) = items → items ≠ [] →
      generate_report_data objParse raw_response today =
        .ok (.pyDict [("items", .pyList items),
                      ("generation_date", .pyStr today)])) ∧
    (∀ x ∈ extract_items_from_truncated_json objParse
        (sanitize_json_response raw_response),
      ∃ str, objParse str = some x) := by
  have hrt : (if raw_response = "" then ""
      else sanitize_json_response raw_response) =
      sanitize_json_response raw_response := by
    by_cases h : raw_response = ""
    · rw [if_pos h, h]
      rfl
    · rw [if_neg h]
  refine ⟨?_, ?_, ?_⟩
  · intro hempty
    simp [generate_report_data, hfail, hrt, hempty]
  · intro items hitems hne
    have hfalse : items.isEmpty = false := by
      cases items with
      | nil => exact absurd rfl hne
      | cons a l => rfl
    simp [generate_report_data, hfail, hrt, hitems, hfalse]
  · intro x hx
    rw [extract_items_from_truncated_json] at hx
    split at hx
    · cases hx
    · split at hx
      · cases hx
      · exact scanItems_sound objParse _ _ _ _ _ _
          (fun y hy => absurd hy (List.not_mem_nil y)) x hx

/-- A concrete stand-in for `json.loads` recognizing the one complete
object of the demo response below. -/
def demoParse : String → Option PyData :=
  fun s =>
    if s = "\x7b\"a\": 1\x7d" then some (.pyDict [("a", .pyNum 1)]) else none

/-- A truncated LLM response: the items array is cut off inside its
second object. -/
def demoRaw : String := "\x7b\"items\": [\x7b\"a\": 1\x7d, \x7b\"b\": 2"

/-- Witness for C4 on the demo response: the whole response fails to
parse, the one complete object is salvaged, and the fallback report
carries exactly it. -/
theorem truncated_json_fallback_witness :
    generate_report_data demoParse demoRaw "01.01.2026" =
      .ok (.pyDict [("items", .pyList [.pyDict [("a", .pyNum 1)]]),
                    ("generation_date", .pyStr "01.01.2026")]) := by
  have h := truncated_json_fallback demoParse demoRaw "01.01.2026" (by rfl)
  exact h.2.1 [.pyDict [("a", .pyNum 1)]] (by rfl) (by simp)
